import Mathlib

set_option maxHeartbeats 1000000


/-!
Shallow embedding of the megaeth-analysis ingestion/analytics pipeline.

Conventions of the embedding:
* machine integers (u8/u64/u128/U256/usize) are modelled as `Nat`; the code
  never relies on wrap-around in the parts embedded here;
* byte strings are `List Nat`; 256-bit hashes and addresses are `Nat`;
* `chrono::DateTime<Utc>` timestamps are `Int` (Unix seconds), `Instant`
  is `Nat`; the current time is passed explicitly as a parameter;
* the external FastLZ compressed-length function (crate `op_alloy_flz`) is
  not part of the repository, so it is taken as a function parameter
  `flz : List Nat -> Nat` wherever the code calls it;
* `f64` arithmetic on division-derived means/scores is modelled exactly
  over `Rat`; the one transcendental (`tanh`) is abstracted as a bounded
  parameter, see `normalize_metric`;
* fallible Rust functions returning `anyhow::Result` are `Except Unit`.
-/

/-! ## Transaction size codec (src/api/src/rpc/client.rs) -/

/-- Raw receipt data as parsed from the RPC (fields used by the core). -/
structure RawReceipt where
  transaction_hash : Nat
  gas_used : Nat
  status : Bool
  contract_address : Option Nat
  from_addr : Nat
  effective_gas_price : Option Nat
deriving Repr, DecidableEq

/-- Raw transaction data as parsed from the RPC. -/
structure RawTransaction where
  hash : Nat
  from_addr : Nat
  to_addr : Option Nat
  input : List Nat
  gas : Nat
  tx_type : Nat
  nonce : Nat
  value : Nat
  gas_price : Option Nat
  max_fee_per_gas : Option Nat
  max_priority_fee_per_gas : Option Nat
  chain_id : Option Nat
  v : Nat
  r : Nat
  s : Nat
  access_list : List (Nat × List Nat)
deriving Repr, DecidableEq

/-- Binary width of a value within a `fuel`-bit machine word: the number of
bits below the leading zeros, i.e. `fuel - leading_zeros` for values of at
most `fuel` bits (fuel-structured so that concrete inputs evaluate). -/
def bits_len : Nat → Nat → Nat
  | 0, _ => 0
  | fuel + 1, val => if val = 0 then 0 else bits_len fuel (val / 2) + 1

/-- RLP size of a u64: `64 - leading_zeros` is the bit width. -/
def rlp_uint_size (val : Nat) : Nat :=
  if val = 0 then 1
  else if val < 128 then 1
  else 1 + (bits_len 64 val + 7) / 8

/-- RLP size of a u128 (same formula on a 128-bit word). -/
def rlp_u128_size (val : Nat) : Nat :=
  if val = 0 then 1
  else if val < 128 then 1
  else 1 + (bits_len 128 val + 7) / 8

/-- RLP size of a U256: significant big-endian bytes; the source tests
`significant_bytes == 1 && bytes[31] < 128`, i.e. the value fits one byte
below 128. -/
def rlp_u256_size (val : Nat) : Nat :=
  if val = 0 then 1
  else
    let significant_bytes := (bits_len 256 val + 7) / 8
    if significant_bytes = 1 ∧ val < 128 then 1 else 1 + significant_bytes

/-- RLP length prefix size (the length is a usize, 64 bits). -/
def rlp_length_prefix_size (len : Nat) : Nat :=
  if len < 56 then 1 else 1 + (bits_len 64 len + 7) / 8

/-- Access list RLP size: 21 per address plus `1 + 33 * keys` per entry,
wrapped in a length prefix; 1 byte for the empty list. -/
def RawTransaction.access_list_size (tx : RawTransaction) : Nat :=
  if tx.access_list = [] then 1
  else
    let size := tx.access_list.foldl (fun acc e => acc + 21 + (1 + e.2.length * 33)) 0
    size + rlp_length_prefix_size size

/-- EIP-2718 encoded size, mirroring `RawTransaction::encoded_size`. -/
def RawTransaction.encoded_size (tx : RawTransaction) : Nat :=
  let base :=
    65 + rlp_uint_size tx.nonce + rlp_uint_size tx.gas +
      (if tx.to_addr.isSome then 21 else 1) + rlp_u256_size tx.value +
      (rlp_length_prefix_size tx.input.length + tx.input.length)
  let typed :=
    if tx.tx_type = 0 then rlp_u128_size (tx.gas_price.getD 0)
    else if tx.tx_type = 1 then
      rlp_u128_size (tx.gas_price.getD 0) + tx.access_list_size + 1
    else if tx.tx_type = 2 then
      rlp_u128_size (tx.max_priority_fee_per_gas.getD 0) +
        rlp_u128_size (tx.max_fee_per_gas.getD 0) + tx.access_list_size + 1
    else if tx.tx_type = 126 then 1 + 100
    else rlp_u128_size (tx.gas_price.getD 0)
  let cid :=
    if tx.tx_type > 0 ∧ tx.chain_id.isSome then rlp_uint_size (tx.chain_id.getD 0) else 0
  base + typed + cid + 3

/-- Byte stream handed to FastLZ for the DA size: type envelope byte for
typed transactions, then the input, then 65 zero signature bytes, padded
with zeros up to `encoded_size`. -/
def RawTransaction.to_bytes_for_da (tx : RawTransaction) : List Nat :=
  let bytes := (if tx.tx_type > 0 then [tx.tx_type] else []) ++ tx.input ++ List.replicate 65 0
  let target := tx.encoded_size
  if bytes.length < target then bytes ++ List.replicate (target - bytes.length) 0 else bytes

/-! ## Metrics calculator (src/api/src/processor/calculator.rs) -/

/-- The eight per-transaction resource metrics (src/api/src/metrics/types.rs). -/
structure TransactionMetrics where
  tx_hash : Nat
  block_number : Nat
  timestamp : Int
  to_addr : Option Nat
  from_addr : Nat
  total_gas : Nat
  compute_gas : Nat
  storage_gas : Nat
  tx_size : Nat
  da_size : Nat
  data_size : Nat
  kv_updates : Nat
  state_growth : Nat
deriving Repr, DecidableEq

/-- Block-level aggregated metrics (src/api/src/metrics/types.rs). -/
structure BlockMetrics where
  block_number : Nat
  block_hash : Nat
  timestamp : Int
  tx_count : Nat
  total_gas : Nat
  compute_gas : Nat
  storage_gas : Nat
  tx_size : Nat
  da_size : Nat
  data_size : Nat
  kv_updates : Nat
  state_growth : Nat
  gas_limit : Nat
deriving Repr, DecidableEq

/-- Raw block data as parsed from the RPC. -/
structure RawBlock where
  number : Nat
  hash : Nat
  gas_used : Nat
  gas_limit : Nat
  timestamp : Nat
  extra_data : List Nat
  mini_block_count : Nat
  transactions : List RawTransaction
deriving Repr, DecidableEq

/-- Deposit transaction type tag. -/
def DEPOSIT_TX_TYPE : Nat := 126

/-- Unix seconds to DateTime, modelled as the integer cast (the chrono
conversion is injective on the valid range; the out-of-range fallback to
the current time is unreachable for realistic block timestamps). -/
def timestamp_to_datetime (timestamp : Nat) : Int := (timestamp : Int)

/-- Placeholder mega-evm resource estimation. The source computes the
compute share as `(total_gas as f64 * 0.7) as u64` (resp. `0.3`); this is
modelled as the exact rational product truncated to an integer, which is
how the f64 expression behaves on the u64 range up to negligible rounding
in the last bit and never exceeds `total_gas` either way. -/
def estimate_mega_evm_metrics (total_gas input_len : Nat) : Nat × Nat × Nat × Nat :=
  let compute_gas := if input_len > 4 then total_gas * 7 / 10 else total_gas * 3 / 10
  let data_size := input_len
  let kv_updates := max (total_gas / 20000) 1
  let state_growth := kv_updates / 5
  (compute_gas, data_size, kv_updates, state_growth)

/-- Receipt lookup by transaction hash. The source collects receipts into a
HashMap keyed by hash (a later duplicate hash overwrites an earlier one),
so the lookup returns the last matching receipt. -/
def receipt_for (receipts : List RawReceipt) (h : Nat) : Option RawReceipt :=
  receipts.reverse.find? (fun rc => rc.transaction_hash == h)

/-- Per-transaction body of `MetricsCalculator::process_block`. -/
def tx_metrics_of (flz : List Nat → Nat) (block : RawBlock) (receipts : List RawReceipt)
    (tx : RawTransaction) : TransactionMetrics :=
  let total_gas := ((receipt_for receipts tx.hash).map RawReceipt.gas_used).getD tx.gas
  let tx_size := tx.encoded_size
  let is_deposit := tx.tx_type = DEPOSIT_TX_TYPE
  let da_size := if is_deposit then 0 else flz tx.to_bytes_for_da
  let input_len := tx.input.length
  let em := estimate_mega_evm_metrics total_gas input_len
  let compute_gas := em.1
  let data_size := em.2.1
  let kv_updates := em.2.2.1
  let state_growth := em.2.2.2
  let storage_gas := total_gas - compute_gas
  { tx_hash := tx.hash
    block_number := block.number
    timestamp := timestamp_to_datetime block.timestamp
    to_addr := tx.to_addr
    from_addr := tx.from_addr
    total_gas := total_gas
    compute_gas := compute_gas
    storage_gas := storage_gas
    tx_size := tx_size
    da_size := da_size
    data_size := data_size
    kv_updates := kv_updates
    state_growth := state_growth }

/-- `MetricsCalculator::process_block`: maps every transaction to its
metrics record and aggregates the eight sums; the source accumulates the
sums in the same loop, which is the sum over the mapped list. The function
returns `Result` in the source but has no fallible step, mirrored by
always producing `Except.ok`. -/
def MetricsCalculator.process_block (flz : List Nat → Nat) (block : RawBlock)
    (receipts : List RawReceipt) : Except Unit (BlockMetrics × List TransactionMetrics) :=
  let tx_metrics := block.transactions.map (tx_metrics_of flz block receipts)
  let block_metrics : BlockMetrics :=
    { block_number := block.number
      block_hash := block.hash
      timestamp := timestamp_to_datetime block.timestamp
      tx_count := tx_metrics.length
      total_gas := (tx_metrics.map TransactionMetrics.total_gas).sum
      compute_gas := (tx_metrics.map TransactionMetrics.compute_gas).sum
      storage_gas := (tx_metrics.map TransactionMetrics.storage_gas).sum
      tx_size := (tx_metrics.map TransactionMetrics.tx_size).sum
      da_size := (tx_metrics.map TransactionMetrics.da_size).sum
      data_size := (tx_metrics.map TransactionMetrics.data_size).sum
      kv_updates := (tx_metrics.map TransactionMetrics.kv_updates).sum
      state_growth := (tx_metrics.map TransactionMetrics.state_growth).sum
      gas_limit := block.gas_limit }
  Except.ok (block_metrics, tx_metrics)

/-! ## Rolling-window store (src/api/src/metrics/store.rs) -/

/-- Maximum number of blocks kept in memory. -/
def MAX_BLOCKS : Nat := 60000

/-- In-memory metrics store. Deques are lists with the front at the head;
push_back is append at the tail. -/
structure MetricsStore where
  blocks : List BlockMetrics
  transactions : List TransactionMetrics
  last_block : Nat
deriving Repr, DecidableEq

/-- A fresh store. -/
def MetricsStore.new : MetricsStore :=
  { blocks := [], transactions := [], last_block := 0 }

/-- The trim loop of `MetricsStore::add_block`: while more than `MAX_BLOCKS`
blocks are held, pop the front block and pop every front transaction record
carrying its block number. -/
def evict_loop : List BlockMetrics → List TransactionMetrics →
    List BlockMetrics × List TransactionMetrics
  | [], transactions => ([], transactions)
  | old_block :: rest, transactions =>
    if (old_block :: rest).length > MAX_BLOCKS then
      evict_loop rest
        (transactions.dropWhile (fun t => t.block_number == old_block.block_number))
    else (old_block :: rest, transactions)

/-- `MetricsStore::add_block`: append the block and its transactions, set
`last_block`, then trim. -/
def MetricsStore.add_block (s : MetricsStore) (block : BlockMetrics)
    (txs : List TransactionMetrics) : MetricsStore :=
  let blocks := s.blocks ++ [block]
  let transactions := s.transactions ++ txs
  let trimmed := evict_loop blocks transactions
  { blocks := trimmed.1, transactions := trimmed.2, last_block := block.block_number }

/-- Windowed statistics record (src/api/src/metrics/types.rs); means are
f64 values modelled as exact rationals. -/
structure WindowStats where
  window_start : Int
  window_end : Int
  block_count : Nat
  tx_count : Nat
  mean_total_gas : Rat
  mean_compute_gas : Rat
  mean_storage_gas : Rat
  mean_tx_size : Rat
  mean_da_size : Rat
  mean_data_size : Rat
  mean_kv_updates : Rat
  mean_state_growth : Rat
  p95_total_gas : Nat
  p95_compute_gas : Nat
  p95_storage_gas : Nat
  p95_tx_size : Nat
  p95_da_size : Nat
  p95_data_size : Nat
  p95_kv_updates : Nat
  p95_state_growth : Nat
  max_total_gas : Nat
  max_compute_gas : Nat
  max_storage_gas : Nat
  max_tx_size : Nat
  max_da_size : Nat
  max_data_size : Nat
  max_kv_updates : Nat
  max_state_growth : Nat
  sum_total_gas : Nat
  sum_compute_gas : Nat
  sum_storage_gas : Nat
  sum_tx_size : Nat
  sum_da_size : Nat
  sum_data_size : Nat
  sum_kv_updates : Nat
  sum_state_growth : Nat
deriving Repr, DecidableEq

/-- `WindowStats::default()` with the current time `t`: both window bounds
at `t`, every count, mean, p95, max and sum zero. -/
def WindowStats.default_at (t : Int) : WindowStats :=
  { window_start := t, window_end := t, block_count := 0, tx_count := 0
    mean_total_gas := 0, mean_compute_gas := 0, mean_storage_gas := 0
    mean_tx_size := 0, mean_da_size := 0, mean_data_size := 0
    mean_kv_updates := 0, mean_state_growth := 0
    p95_total_gas := 0, p95_compute_gas := 0, p95_storage_gas := 0
    p95_tx_size := 0, p95_da_size := 0, p95_data_size := 0
    p95_kv_updates := 0, p95_state_growth := 0
    max_total_gas := 0, max_compute_gas := 0, max_storage_gas := 0
    max_tx_size := 0, max_da_size := 0, max_data_size := 0
    max_kv_updates := 0, max_state_growth := 0
    sum_total_gas := 0, sum_compute_gas := 0, sum_storage_gas := 0
    sum_tx_size := 0, sum_da_size := 0, sum_data_size := 0
    sum_kv_updates := 0, sum_state_growth := 0 }

/-- The free `percentile` helper of store.rs: sort and read the nearest-rank
index `min (len * p / 100) (len - 1)`. -/
def store_percentile (values : List Nat) (p : Nat) : Nat :=
  if values = [] then 0
  else
    let sorted := values.mergeSort
    sorted.getD (min (sorted.length * p / 100) (sorted.length - 1)) 0

/-- `MetricsStore::get_window_stats`, with the current time `now` passed
explicitly. -/
def MetricsStore.get_window_stats (s : MetricsStore) (now : Int) (seconds : Nat) : WindowStats :=
  let window_start : Int := now - (seconds : Int)
  let window_blocks := s.blocks.filter (fun b => window_start ≤ b.timestamp)
  let window_txs := s.transactions.filter (fun t => window_start ≤ t.timestamp)
  if window_blocks = [] then
    { WindowStats.default_at now with window_start := window_start, window_end := now }
  else
    let block_count := window_blocks.length
    let tx_count := window_txs.length
    let sum_total_gas := (window_blocks.map BlockMetrics.total_gas).sum
    let sum_compute_gas := (window_blocks.map BlockMetrics.compute_gas).sum
    let sum_storage_gas := (window_blocks.map BlockMetrics.storage_gas).sum
    let sum_tx_size := (window_blocks.map BlockMetrics.tx_size).sum
    let sum_da_size := (window_blocks.map BlockMetrics.da_size).sum
    let sum_data_size := (window_blocks.map BlockMetrics.data_size).sum
    let sum_kv_updates := (window_blocks.map BlockMetrics.kv_updates).sum
    let sum_state_growth := (window_blocks.map BlockMetrics.state_growth).sum
    { window_start := window_start
      window_end := now
      block_count := block_count
      tx_count := tx_count
      mean_total_gas := (sum_total_gas : Rat) / (block_count : Rat)
      mean_compute_gas := (sum_compute_gas : Rat) / (block_count : Rat)
      mean_storage_gas := (sum_storage_gas : Rat) / (block_count : Rat)
      mean_tx_size := (sum_tx_size : Rat) / (block_count : Rat)
      mean_da_size := (sum_da_size : Rat) / (block_count : Rat)
      mean_data_size := (sum_data_size : Rat) / (block_count : Rat)
      mean_kv_updates := (sum_kv_updates : Rat) / (block_count : Rat)
      mean_state_growth := (sum_state_growth : Rat) / (block_count : Rat)
      p95_total_gas := store_percentile (window_txs.map TransactionMetrics.total_gas) 95
      p95_compute_gas := store_percentile (window_txs.map TransactionMetrics.compute_gas) 95
      p95_storage_gas := store_percentile (window_txs.map TransactionMetrics.storage_gas) 95
      p95_tx_size := store_percentile (window_txs.map TransactionMetrics.tx_size) 95
      p95_da_size := store_percentile (window_txs.map TransactionMetrics.da_size) 95
      p95_data_size := store_percentile (window_txs.map TransactionMetrics.data_size) 95
      p95_kv_updates := store_percentile (window_txs.map TransactionMetrics.kv_updates) 95
      p95_state_growth := store_percentile (window_txs.map TransactionMetrics.state_growth) 95
      max_total_gas := (window_txs.map TransactionMetrics.total_gas).foldr max 0
      max_compute_gas := (window_txs.map TransactionMetrics.compute_gas).foldr max 0
      max_storage_gas := (window_txs.map TransactionMetrics.storage_gas).foldr max 0
      max_tx_size := (window_txs.map TransactionMetrics.tx_size).foldr max 0
      max_da_size := (window_txs.map TransactionMetrics.da_size).foldr max 0
      max_data_size := (window_txs.map TransactionMetrics.data_size).foldr max 0
      max_kv_updates := (window_txs.map TransactionMetrics.kv_updates).foldr max 0
      max_state_growth := (window_txs.map TransactionMetrics.state_growth).foldr max 0
      sum_total_gas := sum_total_gas
      sum_compute_gas := sum_compute_gas
      sum_storage_gas := sum_storage_gas
      sum_tx_size := sum_tx_size
      sum_da_size := sum_da_size
      sum_data_size := sum_data_size
      sum_kv_updates := sum_kv_updates
      sum_state_growth := sum_state_growth }

/-! ## Rolling percentile estimator (src/api/src/metrics/rolling_stats.rs) -/

/-- Protocol limits (module `limits`). -/
def BLOCK_GAS_LIMIT : Nat := 30000000
def BLOCK_KV_UPDATE_LIMIT : Nat := 500000
def BLOCK_TX_SIZE_LIMIT : Nat := 1000000
def BLOCK_DA_SIZE_LIMIT : Nat := 1000000
def BLOCK_DATA_LIMIT : Nat := 10000000
def BLOCK_STATE_GROWTH_LIMIT : Nat := 100000

/-- A per-block sample; the timestamp is an `Instant` (Nat seconds). -/
structure MetricSample where
  timestamp : Nat
  total_gas : Nat
  kv_updates : Nat
  tx_size : Nat
  da_size : Nat
  data_size : Nat
  state_growth : Nat
deriving Repr, DecidableEq

/-- Percentile statistics for a single metric. -/
structure PercentileStats where
  p10 : Nat
  p25 : Nat
  median : Nat
  p75 : Nat
  p90 : Nat
  iqr : Nat
  min : Nat
  max : Nat
  count : Nat
deriving Repr, DecidableEq

/-- Rolling statistics state. -/
structure RollingStats where
  window_duration : Nat
  max_samples : Nat
  samples : List MetricSample
deriving Repr, DecidableEq

/-- `RollingStats::new()`: 600-second window, 2000 samples. -/
def RollingStats.new : RollingStats :=
  { window_duration := 600, max_samples := 2000, samples := [] }

/-- `RollingStats::evict_old` at current instant `now`: pop front samples
strictly older than `now - window_duration` (Nat subtraction models the
saturating Instant arithmetic). -/
def RollingStats.evict_old (rs : RollingStats) (now : Nat) : RollingStats :=
  { rs with samples := rs.samples.dropWhile (fun s => s.timestamp < now - rs.window_duration) }

/-- `RollingStats::add_sample`: evict old samples, drop the oldest when at
capacity, then append. -/
def RollingStats.add_sample (rs : RollingStats) (now : Nat) (sample : MetricSample) :
    RollingStats :=
  let rs1 := rs.evict_old now
  let samples :=
    if rs1.samples.length ≥ rs1.max_samples then rs1.samples.tail else rs1.samples
  { rs1 with samples := samples ++ [sample] }

/-- `RollingStats::compute_percentiles` for one extracted metric: sort the
values and read the nearest-rank indices. -/
def RollingStats.compute_percentiles (rs : RollingStats) (extractor : MetricSample → Nat) :
    PercentileStats :=
  let values := rs.samples.map extractor
  if values = [] then
    { p10 := 0, p25 := 0, median := 0, p75 := 0, p90 := 0, iqr := 0
      min := 0, max := 0, count := 0 }
  else
    let sorted := values.mergeSort
    let n := sorted.length
    let p10 := sorted.getD (n * 10 / 100) 0
    let p25 := sorted.getD (n * 25 / 100) 0
    let median := sorted.getD (n * 50 / 100) 0
    let p75 := sorted.getD (n * 75 / 100) 0
    let p90 := sorted.getD (n * 90 / 100) 0
    { p10 := p10, p25 := p25, median := median, p75 := p75, p90 := p90
      iqr := p75 - p25, min := sorted.getD 0 0, max := sorted.getD (n - 1) 0, count := n }

/-- Normalized metric value; the score and utilization are f64 values
modelled as exact rationals. -/
structure NormalizedMetric where
  raw : Nat
  score : Rat
  utilization_pct : Rat
  limit : Nat
deriving Repr, DecidableEq

/-- Rust `f64::clamp lo hi`. -/
def clampQ (x lo hi : Rat) : Rat := min (max x lo) hi

/-- `normalize_metric` of rolling_stats.rs. The only transcendental step of
the source, `tanh ((value - median) / (iqr * 1.5))`, is abstracted as the
parameter `tanhx`; theorems about the sigmoid branch assume only the
mathematical bound `|tanhx| ≤ 1`. Every other f64 step is exact rational
arithmetic. -/
def normalize_metric (value : Nat) (stats : PercentileStats) (protocol_limit : Nat)
    (tanhx : Rat) : NormalizedMetric :=
  let utilization : Rat := (value : Rat) / (protocol_limit : Rat)
  let utilization_pct := utilization * 100
  if stats.count = 0 ∨ stats.iqr = 0 then
    { raw := value
      score := clampQ (utilization * 200 - 100) (-100) 100
      utilization_pct := utilization_pct
      limit := protocol_limit }
  else
    let score := tanhx * 100
    let score1 := if utilization > 1/2 then max score (utilization * 100) else score
    { raw := value
      score := clampQ score1 (-100) 100
      utilization_pct := utilization_pct
      limit := protocol_limit }

/-! ## RPC retry loop (src/api/src/rpc/client.rs, `rpc_call`) -/

/-- Failure modes of a single `rpc_call_once` attempt, following §7 of the
spec: transport covers connection errors and timeouts; an unsuccessful
HTTP status carries its code (4xx and 5xx alike bail at the same place);
parse failures and RPC-level error objects are the remaining bails. -/
inductive RpcFailure where
  | transport
  | httpStatus (code : Nat)
  | parseError
  | rpcErrorObject
deriving Repr, DecidableEq

/-- Retry budget of `rpc_call`. -/
def MAX_RETRIES : Nat := 3

/-- The retry loop of `rpc_call`: `attempts i` is the outcome of the i-th
`rpc_call_once`, `remaining` the attempts left of the `0..MAX_RETRIES`
range, `last_error` the stored last error. Returns the result together with
the number of attempts actually performed. The source retries every `Err`
while attempts remain and finally returns `last_error.unwrap()` (reached
only with `last_error` set, so the `getD` default is never read). -/
def rpc_call_go (attempts : Nat → Except RpcFailure Nat) (attempt : Nat)
    (last_error : Option RpcFailure) : Nat → Except RpcFailure Nat × Nat
  | 0 => (.error (last_error.getD .transport), attempt)
  | remaining + 1 =>
    match attempts attempt with
    | .ok v => (.ok v, attempt + 1)
    | .error e => rpc_call_go attempts (attempt + 1) (some e) remaining

/-- `rpc_call`: run the retry loop over attempts `0..MAX_RETRIES`. -/
def rpc_call (attempts : Nat → Except RpcFailure Nat) : Except RpcFailure Nat × Nat :=
  rpc_call_go attempts 0 none MAX_RETRIES

/-! ## Block poller (src/api/src/rpc/poller.rs) -/

/-- Outcome of fetching one block (block-with-txs plus receipts): the block
may be absent (RPC null), present, or the fetch may fail. -/
inductive FetchOutcome where
  | notFound
  | found (block : RawBlock) (receipts : List RawReceipt)
  | fetchErr
deriving Repr

/-- `BlockPoller::process_block`: absent blocks are logged and skipped with
`Ok`, leaving the store untouched; a found block runs the calculator and is
added to the store; fetch failures propagate as errors. -/
def BlockPoller.process_block (flz : List Nat → Nat) (s : MetricsStore)
    (fetch : Nat → FetchOutcome) (block_number : Nat) : Except Unit MetricsStore :=
  match fetch block_number with
  | .fetchErr => .error ()
  | .notFound => .ok s
  | .found block receipts =>
    match MetricsCalculator.process_block flz block receipts with
    | .error _ => .error ()
    | .ok (block_metrics, tx_metrics) => .ok (s.add_block block_metrics tx_metrics)

/-- `BlockPoller::poll_once`: compute the confirmation-lagged target, pick
the start block (fresh stores start 100 blocks back), and process at most
100 blocks sequentially. -/
def BlockPoller.poll_once (flz : List Nat → Nat) (s : MetricsStore)
    (fetch : Nat → FetchOutcome) (latest confirmation_blocks : Nat) :
    Except Unit MetricsStore :=
  let target := latest - confirmation_blocks
  let last_processed := s.last_block
  let start_block := if last_processed = 0 then target - 100 else last_processed + 1
  if start_block ≤ target then
    let blocks_to_process := min (target - start_block + 1) 100
    (List.range blocks_to_process).foldlM
      (fun st i => BlockPoller.process_block flz st fetch (start_block + i)) s
  else .ok s

/-! ## Helper lemmas -/

theorem mul_div_ten_le (g k : Nat) (hk : k ≤ 10) : g * k / 10 ≤ g := by
  calc g * k / 10 ≤ g * 10 / 10 := Nat.div_le_div_right (Nat.mul_le_mul_left g hk)
    _ = g := Nat.mul_div_cancel g (by norm_num)

theorem dropWhile_append_of_forall {α} (p : α → Bool) (l₁ l₂ : List α)
    (h : ∀ x ∈ l₁, p x = true) : (l₁ ++ l₂).dropWhile p = l₂.dropWhile p := by
  induction l₁ with
  | nil => rfl
  | cons a l ih =>
    have ha : p a = true := h a (List.mem_cons_self a l)
    simp only [List.cons_append, List.dropWhile_cons, ha, if_true]
    exact ih (fun x hx => h x (List.mem_cons_of_mem a hx))

theorem dropWhile_eq_self_of_forall {α} (p : α → Bool) (l : List α)
    (h : ∀ x ∈ l, p x = false) : l.dropWhile p = l := by
  cases l with
  | nil => rfl
  | cons a l =>
    have ha : p a = false := h a (List.mem_cons_self a l)
    simp [List.dropWhile_cons, ha]

/-! ## Shared concrete inputs for witnesses -/

/-- Stand-in FastLZ length function for concrete evaluations. -/
def flz0 : List Nat → Nat := fun l => l.length

/-- A concrete deposit (type 126) transaction. -/
def txW : RawTransaction :=
  { hash := 11, from_addr := 2, to_addr := some 3, input := [1, 2, 3, 4, 5, 6, 7, 8],
    gas := 50000, tx_type := 126, nonce := 3, value := 0, gas_price := none,
    max_fee_per_gas := none, max_priority_fee_per_gas := none, chain_id := some 1,
    v := 0, r := 0, s := 0, access_list := [] }

/-- A concrete block holding `txW`. -/
def blkW : RawBlock :=
  { number := 9, hash := 99, gas_used := 50000, gas_limit := 30000000, timestamp := 1000,
    extra_data := [], mini_block_count := 1, transactions := [txW] }

/-! ## Claim C5 -/

/-- Claim C5: for every transaction record produced by the calculator,
storage_gas + compute_gas equals total_gas exactly and the compute share
(floor of 0.7 or 0.3 of total_gas) never exceeds total_gas; both components
are non-negative (they live in Nat). -/
theorem tx_storage_compute_split (flz : List Nat → Nat) (block : RawBlock)
    (receipts : List RawReceipt) (tx : RawTransaction) :
    (tx_metrics_of flz block receipts tx).storage_gas +
        (tx_metrics_of flz block receipts tx).compute_gas =
      (tx_metrics_of flz block receipts tx).total_gas ∧
    (tx_metrics_of flz block receipts tx).compute_gas ≤
      (tx_metrics_of flz block receipts tx).total_gas := by
  simp only [tx_metrics_of, estimate_mega_evm_metrics]
  set g := ((receipt_for receipts tx.hash).map RawReceipt.gas_used).getD tx.gas with hg
  have hc : (if tx.input.length > 4 then g * 7 / 10 else g * 3 / 10) ≤ g := by
    split
    · exact mul_div_ten_le g 7 (by norm_num)
    · exact mul_div_ten_le g 3 (by norm_num)
  exact ⟨Nat.sub_add_cancel hc, hc⟩

/-! ## Claim C10 -/

/-- Claim C10: the calculator returns Ok for every raw block and receipt
list (empty, mismatched or unmatched receipts included), and any
transaction with no matching receipt falls back to tx.gas. -/
theorem process_block_total (flz : List Nat → Nat) (block : RawBlock)
    (receipts : List RawReceipt) :
    (MetricsCalculator.process_block flz block receipts).isOk = true ∧
    ∀ tx ∈ block.transactions, (∀ rc ∈ receipts, rc.transaction_hash ≠ tx.hash) →
      (tx_metrics_of flz block receipts tx).total_gas = tx.gas := by
  constructor
  · rfl
  · intro tx _ hno
    have hnone : receipt_for receipts tx.hash = none := by
      apply List.find?_eq_none.mpr
      intro rc hrc
      simp only [List.mem_reverse] at hrc
      simpa using hno rc hrc
    simp [tx_metrics_of, hnone]

/-- Witness for C10 at the concrete block `blkW` with no receipts. -/
theorem process_block_total_witness :
    (MetricsCalculator.process_block flz0 blkW []).isOk = true ∧
    (tx_metrics_of flz0 blkW [] txW).total_gas = txW.gas :=
  ⟨(process_block_total flz0 blkW []).1,
   (process_block_total flz0 blkW []).2 txW (by decide) (by intro rc hrc; cases hrc)⟩

/-! ## Claim C2 -/

/-- Claim C2: a deposit (type 126) transaction always has da_size 0
whatever its input bytes and whatever the compressor computes, while its
tx_size is the codec's full EIP-2718 encoded length, which contains the
1-byte type envelope plus the 100-byte deposit overhead constant on top of
the common fields. -/
theorem deposit_da_zero_full_tx_size (flz : List Nat → Nat) (block : RawBlock)
    (receipts : List RawReceipt) (tx : RawTransaction) (h : tx.tx_type = 126) :
    (tx_metrics_of flz block receipts tx).da_size = 0 ∧
    (tx_metrics_of flz block receipts tx).tx_size = tx.encoded_size ∧
    tx.encoded_size =
      (65 + rlp_uint_size tx.nonce + rlp_uint_size tx.gas +
          (if tx.to_addr.isSome then 21 else 1) + rlp_u256_size tx.value +
          (rlp_length_prefix_size tx.input.length + tx.input.length)) +
        (1 + 100) +
        (if tx.chain_id.isSome then rlp_uint_size (tx.chain_id.getD 0) else 0) + 3 := by
  refine ⟨?_, ?_, ?_⟩
  · simp [tx_metrics_of, DEPOSIT_TX_TYPE, h]
  · simp [tx_metrics_of]
  · simp [RawTransaction.encoded_size, h]

/-- Witness for C2 at the concrete deposit transaction `txW`. -/
theorem deposit_da_zero_full_tx_size_witness :
    (tx_metrics_of flz0 blkW [] txW).da_size = 0 ∧
    (tx_metrics_of flz0 blkW [] txW).tx_size = txW.encoded_size :=
  ⟨(deposit_da_zero_full_tx_size flz0 blkW [] txW rfl).1,
   (deposit_da_zero_full_tx_size flz0 blkW [] txW rfl).2.1⟩

/-! ## Claim C7 -/

/-- Claim C7 (code bug): the source comment and the spec say only transient
failures (network, timeout, 5xx) are retried and non-transient failures
(HTTP 4xx, parse error, RPC error object) return immediately, but the
retry loop matches every `Err` alike: an HTTP 404, a parse failure and an
RPC-level error object are each attempted 3 times, exactly like a
transport failure, instead of once. A transient failure that then
succeeds is indeed retried with the success returned. -/
theorem rpc_call_retries_non_transient :
    rpc_call (fun _ => .error (.httpStatus 404)) = (.error (.httpStatus 404), 3) ∧
    rpc_call (fun _ => .error .parseError) = (.error .parseError, 3) ∧
    rpc_call (fun _ => .error .rpcErrorObject) = (.error .rpcErrorObject, 3) ∧
    rpc_call (fun i => if i = 0 then .error .transport else .ok 7) = (.ok 7, 2) := by
  exact ⟨rfl, rfl, rfl, rfl⟩

/-! ## Claim C1 -/

/-- Counterexample to claim C1: with no samples in the estimator (the
claim explicitly includes that case), value 6 against limit 10 has
utilization 0.6 > 0.5 but the fallback score is 0.6 × 200 − 100 = 20,
strictly below utilization × 100 = 60. -/
theorem normalize_capacity_claim_fails :
    (6 : Rat) / 10 > 1 / 2 ∧
    (normalize_metric 6 ⟨0, 0, 0, 0, 0, 0, 0, 0, 0⟩ 10 0).score < (6 : Rat) / 10 * 100 := by
  constructor
  · norm_num
  · norm_num [normalize_metric, clampQ]

/-- Claim C1 amended: when the estimator has at least one sample, the IQR
is non-zero and the value does not exceed the protocol limit, utilization
above 0.5 forces score ≥ utilization × 100 (the capacity-warning
override); in the no-sample/zero-IQR fallback, and for values beyond the
limit (score is clamped at 100), the bound can fail. -/
theorem normalize_capacity_override (value : Nat) (stats : PercentileStats)
    (protocol_limit : Nat) (tanhx : Rat)
    (hcount : stats.count ≠ 0) (hiqr : stats.iqr ≠ 0)
    (hle : value ≤ protocol_limit) (hpos : 0 < protocol_limit)
    (hu : (value : Rat) / (protocol_limit : Rat) > 1 / 2) :
    (normalize_metric value stats protocol_limit tanhx).score ≥
      (value : Rat) / (protocol_limit : Rat) * 100 := by
  have hcond : ¬(stats.count = 0 ∨ stats.iqr = 0) := by tauto
  have hlim : (0 : Rat) < (protocol_limit : Rat) := by exact_mod_cast hpos
  have hu1 : (value : Rat) / (protocol_limit : Rat) ≤ 1 := by
    rw [div_le_one hlim]
    exact_mod_cast hle
  simp only [normalize_metric, if_neg hcond, if_pos hu, clampQ]
  have h100 : (value : Rat) / (protocol_limit : Rat) * 100 ≤ 100 := by
    calc (value : Rat) / (protocol_limit : Rat) * 100 ≤ 1 * 100 :=
          mul_le_mul_of_nonneg_right hu1 (by norm_num)
      _ = 100 := one_mul 100
  exact le_min (le_trans (le_max_right (tanhx * 100) _) (le_max_left _ (-100))) h100

/-- Witness for the amended C1 at value 6, limit 10, one sample, IQR 1. -/
theorem normalize_capacity_override_witness :
    (normalize_metric 6 ⟨0, 0, 0, 0, 0, 1, 0, 0, 1⟩ 10 0).score ≥ (6 : Rat) / 10 * 100 :=
  normalize_capacity_override 6 ⟨0, 0, 0, 0, 0, 1, 0, 0, 1⟩ 10 0 (by decide) (by decide)
    (by norm_num) (by norm_num) (by norm_num)

/-! ## Claim C6 -/

/-- A concrete retained block far outside the query window. -/
def bmEx : BlockMetrics :=
  { block_number := 1, block_hash := 0, timestamp := 0, tx_count := 0, total_gas := 0,
    compute_gas := 0, storage_gas := 0, tx_size := 0, da_size := 0, data_size := 0,
    kv_updates := 0, state_growth := 0, gas_limit := 0 }

/-- A concrete store whose one block lies outside the 60-second window. -/
def stEx : MetricsStore := { blocks := [bmEx], transactions := [], last_block := 1 }

/-- Counterexample to claim C6: with a 60-second window at time 100 and no
block inside it, the returned record is zero-valued but window_start is
`now - seconds = 40`, not the current time: window_start ≠ window_end. -/
theorem window_stats_start_is_not_now :
    (stEx.get_window_stats 100 60).block_count = 0 ∧
    (stEx.get_window_stats 100 60).window_start ≠ (stEx.get_window_stats 100 60).window_end := by
  exact ⟨rfl, by decide⟩

/-- Claim C6 amended: when no retained block's timestamp lies in the last
`seconds`, get_window_stats returns the zero-valued record with
window_end = now and window_start = now − seconds (these coincide only for
seconds = 0). -/
theorem window_stats_empty (s : MetricsStore) (now : Int) (seconds : Nat)
    (h : ∀ b ∈ s.blocks, b.timestamp < now - (seconds : Int)) :
    s.get_window_stats now seconds =
      { WindowStats.default_at now with
          window_start := now - (seconds : Int), window_end := now } := by
  have hfil : s.blocks.filter (fun b => decide (now - (seconds : Int) ≤ b.timestamp)) = [] := by
    rw [List.filter_eq_nil_iff]
    intro b hb
    simpa using not_le.mpr (h b hb)
  simp only [MetricsStore.get_window_stats]
  rw [hfil]
  rfl

/-- Witness for the amended C6 at the concrete store `stEx`. -/
theorem window_stats_empty_witness :
    stEx.get_window_stats 100 60 =
      { WindowStats.default_at 100 with window_start := 40, window_end := 100 } := by
  have h := window_stats_empty stEx 100 60 (by decide)
  simpa using h

/-! ## Claim C9 -/

theorem sorted_getD_le (l : List Nat) (hs : l.Sorted (· ≤ ·)) (i j : Nat)
    (hij : i ≤ j) (hj : j < l.length) : l.getD i 0 ≤ l.getD j 0 := by
  have hi : i < l.length := lt_of_le_of_lt hij hj
  have hrel := hs.rel_get_of_le (a := ⟨i, hi⟩) (b := ⟨j, hj⟩) (by simpa using hij)
  rw [List.getD_eq_getElem l 0 hi, List.getD_eq_getElem l 0 hj]
  simpa only [List.get_eq_getElem] using hrel

/-- Claim C9: for a non-empty sample deque the percentile stats of every
metric satisfy min ≤ p10 ≤ p25 ≤ median ≤ p75 ≤ p90 ≤ max, the IQR is
p75 − p25 clamped at zero, and the values are read at the nearest-rank
indices floor(N·k/100) of the sorted list, min and max at its ends. -/
theorem percentile_ordering (rs : RollingStats) (f : MetricSample → Nat)
    (hne : rs.samples ≠ []) :
    ((rs.compute_percentiles f).min ≤ (rs.compute_percentiles f).p10 ∧
      (rs.compute_percentiles f).p10 ≤ (rs.compute_percentiles f).p25 ∧
      (rs.compute_percentiles f).p25 ≤ (rs.compute_percentiles f).median ∧
      (rs.compute_percentiles f).median ≤ (rs.compute_percentiles f).p75 ∧
      (rs.compute_percentiles f).p75 ≤ (rs.compute_percentiles f).p90 ∧
      (rs.compute_percentiles f).p90 ≤ (rs.compute_percentiles f).max) ∧
    ((rs.compute_percentiles f).iqr : Int) =
      max (((rs.compute_percentiles f).p75 : Int) - ((rs.compute_percentiles f).p25 : Int)) 0 ∧
    ((rs.compute_percentiles f).p10 =
        ((rs.samples.map f).mergeSort).getD (((rs.samples.map f).mergeSort).length * 10 / 100) 0 ∧
      (rs.compute_percentiles f).p25 =
        ((rs.samples.map f).mergeSort).getD (((rs.samples.map f).mergeSort).length * 25 / 100) 0 ∧
      (rs.compute_percentiles f).median =
        ((rs.samples.map f).mergeSort).getD (((rs.samples.map f).mergeSort).length * 50 / 100) 0 ∧
      (rs.compute_percentiles f).p75 =
        ((rs.samples.map f).mergeSort).getD (((rs.samples.map f).mergeSort).length * 75 / 100) 0 ∧
      (rs.compute_percentiles f).p90 =
        ((rs.samples.map f).mergeSort).getD (((rs.samples.map f).mergeSort).length * 90 / 100) 0 ∧
      (rs.compute_percentiles f).min = ((rs.samples.map f).mergeSort).getD 0 0 ∧
      (rs.compute_percentiles f).max =
        ((rs.samples.map f).mergeSort).getD (((rs.samples.map f).mergeSort).length - 1) 0 ∧
      (rs.compute_percentiles f).count = ((rs.samples.map f).mergeSort).length) := by
  have hval : rs.samples.map f ≠ [] := by simpa using hne
  have hsort : ((rs.samples.map f).mergeSort).Sorted (· ≤ ·) :=
    List.sorted_mergeSort' (rs.samples.map f)
  have hn : 0 < ((rs.samples.map f).mergeSort).length := by
    rw [List.length_mergeSort]
    exact List.length_pos.mpr hval
  simp only [RollingStats.compute_percentiles, if_neg hval]
  set n := ((rs.samples.map f).mergeSort).length with hndef
  refine ⟨⟨?_, ?_, ?_, ?_, ?_, ?_⟩, ?_, trivial, trivial, trivial, trivial, trivial, trivial, trivial, trivial⟩
  · exact sorted_getD_le _ hsort 0 (n * 10 / 100) (Nat.zero_le _) (by omega)
  · exact sorted_getD_le _ hsort (n * 10 / 100) (n * 25 / 100) (by omega) (by omega)
  · exact sorted_getD_le _ hsort (n * 25 / 100) (n * 50 / 100) (by omega) (by omega)
  · exact sorted_getD_le _ hsort (n * 50 / 100) (n * 75 / 100) (by omega) (by omega)
  · exact sorted_getD_le _ hsort (n * 75 / 100) (n * 90 / 100) (by omega) (by omega)
  · exact sorted_getD_le _ hsort (n * 90 / 100) (n - 1) (by omega) (by omega)
  · have hp : ((rs.samples.map f).mergeSort).getD (n * 25 / 100) 0 ≤
        ((rs.samples.map f).mergeSort).getD (n * 75 / 100) 0 :=
      sorted_getD_le _ hsort (n * 25 / 100) (n * 75 / 100) (by omega) (by omega)
    rw [max_eq_left (by omega)]
    omega

/-- A concrete estimator state with four samples. -/
def rsEx : RollingStats :=
  { window_duration := 600, max_samples := 2000,
    samples := [⟨0, 20, 1, 1, 1, 1, 1⟩, ⟨0, 30, 2, 2, 2, 2, 2⟩,
                ⟨0, 25, 3, 3, 3, 3, 3⟩, ⟨0, 10, 4, 4, 4, 4, 4⟩] }

/-- Witness for C9 at the concrete estimator `rsEx` on the gas metric. -/
theorem percentile_ordering_witness :
    (rsEx.compute_percentiles MetricSample.total_gas).min ≤
      (rsEx.compute_percentiles MetricSample.total_gas).p10 ∧
    ((rsEx.compute_percentiles MetricSample.total_gas).iqr : Int) =
      max (((rsEx.compute_percentiles MetricSample.total_gas).p75 : Int) -
        ((rsEx.compute_percentiles MetricSample.total_gas).p25 : Int)) 0 :=
  ⟨(percentile_ordering rsEx MetricSample.total_gas (by decide)).1.1,
   (percentile_ordering rsEx MetricSample.total_gas (by decide)).2.1⟩

/-! ## Claim C3 -/

/-- The store after a sequence of add_block calls from a fresh store. -/
def store_after (ops : List (BlockMetrics × List TransactionMetrics)) : MetricsStore :=
  ops.foldl (fun s p => s.add_block p.1 p.2) MetricsStore.new

/-- The estimator after a sequence of add_sample calls from a fresh one. -/
def rolling_after (sops : List (Nat × MetricSample)) : RollingStats :=
  sops.foldl (fun rs p => rs.add_sample p.1 p.2) RollingStats.new

theorem evict_loop_length_le (blocks : List BlockMetrics) (txs : List TransactionMetrics) :
    (evict_loop blocks txs).1.length ≤ MAX_BLOCKS := by
  induction blocks generalizing txs with
  | nil => simp [evict_loop, MAX_BLOCKS]
  | cons hd tl ih =>
    simp only [evict_loop]
    split
    · exact ih _
    · next hle => simpa using Nat.le_of_not_lt hle

theorem add_block_length_le (s : MetricsStore) (b : BlockMetrics)
    (txs : List TransactionMetrics) : (s.add_block b txs).blocks.length ≤ MAX_BLOCKS :=
  evict_loop_length_le _ _

theorem evict_loop_spec (b : List BlockMetrics) (t : List TransactionMetrics) :
    evict_loop b t =
      (b.drop (b.length - MAX_BLOCKS),
       (b.take (b.length - MAX_BLOCKS)).foldl
         (fun ts ob => ts.dropWhile (fun x => x.block_number == ob.block_number)) t) := by
  induction b generalizing t with
  | nil => simp [evict_loop]
  | cons hd tl ih =>
    simp only [evict_loop]
    split
    · next hgt =>
      rw [ih]
      have hk : (hd :: tl).length - MAX_BLOCKS = (tl.length - MAX_BLOCKS) + 1 := by
        simp only [List.length_cons] at hgt ⊢
        omega
      rw [hk, List.drop_succ_cons, List.take_succ_cons, List.foldl_cons]
    · next hle =>
      have hk : tl.length + 1 - MAX_BLOCKS = 0 := by
        simp only [List.length_cons] at hle
        omega
      simp [List.length_cons, hk]

theorem add_sample_length_le (rs : RollingStats) (now : Nat) (x : MetricSample)
    (hpos : 0 < rs.max_samples) (h : rs.samples.length ≤ rs.max_samples) :
    (rs.add_sample now x).samples.length ≤ rs.max_samples := by
  simp only [RollingStats.add_sample, RollingStats.evict_old, List.length_append,
    List.length_singleton]
  have hlen : (rs.samples.dropWhile
      (fun s0 => decide (s0.timestamp < now - rs.window_duration))).length ≤
        rs.max_samples :=
    le_trans (List.dropWhile_sublist _).length_le h
  split
  · next hge =>
    rw [List.length_tail]
    omega
  · next hlt =>
    omega

theorem rolling_fold_le (sops : List (Nat × MetricSample)) (rs : RollingStats)
    (hmax : rs.max_samples = 2000) (h : rs.samples.length ≤ 2000) :
    ((sops.foldl (fun r p => r.add_sample p.1 p.2) rs).samples.length ≤ 2000 ∧
      (sops.foldl (fun r p => r.add_sample p.1 p.2) rs).max_samples = 2000) := by
  induction sops generalizing rs with
  | nil => exact ⟨h, hmax⟩
  | cons p rest ih =>
    simp only [List.foldl_cons]
    apply ih
    · exact hmax
    · rw [← hmax]
      exact add_sample_length_le rs p.1 p.2 (by omega) (by omega)

theorem store_fold_le (ops : List (BlockMetrics × List TransactionMetrics))
    (s : MetricsStore) (h : s.blocks.length ≤ MAX_BLOCKS) :
    (ops.foldl (fun s0 p => s0.add_block p.1 p.2) s).blocks.length ≤ MAX_BLOCKS := by
  induction ops generalizing s with
  | nil => exact h
  | cons p rest ih =>
    simp only [List.foldl_cons]
    exact ih _ (add_block_length_le s p.1 p.2)

/-- Claim C3: after any sequence of add_block and add_sample calls the
store holds at most 60000 blocks and the estimator at most 2000 samples;
the trim loop pops exactly the over-capacity front blocks and, with each,
every front tx record carrying its block number, and on overflow the
estimator drops its oldest sample before appending the new one. -/
theorem bounded_memory :
    (∀ ops : List (BlockMetrics × List TransactionMetrics),
      (store_after ops).blocks.length ≤ 60000) ∧
    (∀ sops : List (Nat × MetricSample),
      (rolling_after sops).samples.length ≤ 2000) ∧
    (∀ (b : List BlockMetrics) (t : List TransactionMetrics),
      evict_loop b t =
        (b.drop (b.length - 60000),
         (b.take (b.length - 60000)).foldl
           (fun ts ob => ts.dropWhile (fun x => x.block_number == ob.block_number)) t)) ∧
    (∀ (rs : RollingStats) (now : Nat) (x : MetricSample),
      (rs.evict_old now).samples.length ≥ rs.max_samples →
        (rs.add_sample now x).samples = (rs.evict_old now).samples.tail ++ [x]) := by
  refine ⟨?_, ?_, ?_, ?_⟩
  · intro ops
    exact store_fold_le ops MetricsStore.new (by simp [MetricsStore.new, MAX_BLOCKS])
  · intro sops
    exact (rolling_fold_le sops RollingStats.new rfl (by simp [RollingStats.new])).1
  · intro b t
    exact evict_loop_spec b t
  · intro rs now x h
    simp only [RollingStats.evict_old] at h
    simp only [RollingStats.add_sample, RollingStats.evict_old, if_pos h]

/-- A one-slot estimator already at capacity. -/
def rsOv : RollingStats :=
  { window_duration := 600, max_samples := 1, samples := [⟨0, 1, 0, 0, 0, 0, 0⟩] }

/-- Witness for C3 at concrete inputs: the fold bound at one op, and the
overflow equation on a full one-slot estimator. -/
theorem bounded_memory_witness :
    (store_after [(bmEx, [])]).blocks.length ≤ 60000 ∧
    (rsOv.add_sample 0 ⟨0, 2, 0, 0, 0, 0, 0⟩).samples =
      (rsOv.evict_old 0).samples.tail ++ [⟨0, 2, 0, 0, 0, 0, 0⟩] :=
  ⟨bounded_memory.1 [(bmEx, [])],
   bounded_memory.2.2.2 rsOv 0 ⟨0, 2, 0, 0, 0, 0, 0⟩ (by decide)⟩

/-! ## Claim C8 -/

/-- A concrete block numbered 7 with no transactions. -/
def blk7 : RawBlock :=
  { number := 7, hash := 77, gas_used := 0, gas_limit := 10, timestamp := 1000,
    extra_data := [], mini_block_count := 1, transactions := [] }

/-- A fetch oracle where block 6 is absent but block 7 is present. -/
def orc0 : Nat → FetchOutcome :=
  fun n => if n = 7 then .found blk7 [] else .notFound

/-- A store whose last processed block is 5. -/
def s5 : MetricsStore := { blocks := [], transactions := [], last_block := 5 }

/-- Counterexample to claim C8: with last processed block 5, head 12 and
confirmation depth 5 (target 7), the RPC reports block 6 absent but block
7 present; the same tick continues past the missing block, processes 7 and
sets last_block to 7, so the next tick starts at 8 and block 6 is never
retried, contradicting "does not advance its start position past n". -/
theorem poller_advances_past_notfound :
    orc0 6 = FetchOutcome.notFound ∧
    (BlockPoller.poll_once flz0 s5 orc0 12 5).map MetricsStore.last_block = Except.ok 7 :=
  ⟨rfl, rfl⟩

theorem poll_fold_notfound (flz : List Nat → Nat) (fetch : Nat → FetchOutcome)
    (start : Nat) (l : List Nat) (s : MetricsStore)
    (hall : ∀ i ∈ l, fetch (start + i) = FetchOutcome.notFound) :
    l.foldlM (fun st i => BlockPoller.process_block flz st fetch (start + i)) s =
      Except.ok s := by
  induction l generalizing s with
  | nil => rfl
  | cons a l ih =>
    rw [List.foldlM_cons]
    have ha : BlockPoller.process_block flz s fetch (start + a) = Except.ok s := by
      simp [BlockPoller.process_block, hall a (List.mem_cons_self a l)]
    rw [ha]
    exact ih s (fun i hi => hall i (List.mem_cons_of_mem a hi))

/-- Claim C8 amended: a NotFound block leaves the store untouched and the
step returns Ok; and when every block from n onward in the tick's range is
absent, the whole tick leaves the store (hence the next start position)
unchanged, so block n is retried on the next tick. The original claim
fails when a later block of the same tick is found (see the
counterexample): the tick then advances last_block past n. -/
theorem poller_notfound_skip (flz : List Nat → Nat) (s : MetricsStore)
    (fetch : Nat → FetchOutcome) (n : Nat) (h : fetch n = FetchOutcome.notFound) :
    BlockPoller.process_block flz s fetch n = Except.ok s ∧
    ∀ latest confirmation_blocks : Nat,
      s.last_block ≠ 0 →
      (∀ k, s.last_block + 1 ≤ k → fetch k = FetchOutcome.notFound) →
      BlockPoller.poll_once flz s fetch latest confirmation_blocks = Except.ok s := by
  constructor
  · simp [BlockPoller.process_block, h]
  · intro latest confirmation_blocks hne hall
    simp only [BlockPoller.poll_once, if_neg hne]
    split
    · exact poll_fold_notfound flz fetch (s.last_block + 1) _ s
        (fun i _ => hall (s.last_block + 1 + i) (by omega))
    · rfl

/-- Witness for the amended C8 on a store at block 5 with an all-absent
oracle. -/
theorem poller_notfound_skip_witness :
    BlockPoller.process_block flz0 s5 (fun _ => FetchOutcome.notFound) 6 = Except.ok s5 ∧
    BlockPoller.poll_once flz0 s5 (fun _ => FetchOutcome.notFound) 12 5 = Except.ok s5 :=
  ⟨(poller_notfound_skip flz0 s5 (fun _ => FetchOutcome.notFound) 6 rfl).1,
   (poller_notfound_skip flz0 s5 (fun _ => FetchOutcome.notFound) 6 rfl).2 12 5
     (by decide) (fun k _ => rfl)⟩

/-! ## Claim C4 -/

/-- Consistency of one block record with a group of tx records: every tx
carries the block's number, the count matches, and each of the eight
metric sums matches. -/
def TxGroupConsistent (bm : BlockMetrics) (g : List TransactionMetrics) : Prop :=
  (∀ t ∈ g, t.block_number = bm.block_number) ∧
  bm.tx_count = g.length ∧
  bm.total_gas = (g.map TransactionMetrics.total_gas).sum ∧
  bm.compute_gas = (g.map TransactionMetrics.compute_gas).sum ∧
  bm.storage_gas = (g.map TransactionMetrics.storage_gas).sum ∧
  bm.tx_size = (g.map TransactionMetrics.tx_size).sum ∧
  bm.da_size = (g.map TransactionMetrics.da_size).sum ∧
  bm.data_size = (g.map TransactionMetrics.data_size).sum ∧
  bm.kv_updates = (g.map TransactionMetrics.kv_updates).sum ∧
  bm.state_growth = (g.map TransactionMetrics.state_growth).sum

/-- Store representation invariant: the tx deque is the concatenation of
per-block groups in block order, each consistent with its block, and block
numbers strictly increase from front to back. -/
def PairInv (blocks : List BlockMetrics) (txs : List TransactionMetrics) : Prop :=
  ∃ groups : List (List TransactionMetrics),
    txs = groups.flatten ∧
    List.Forall₂ TxGroupConsistent blocks groups ∧
    blocks.Pairwise (fun a b => a.block_number < b.block_number)

/-- An (aggregate, per-tx records) pair as produced by the calculator. -/
def IsCalcOutput (op : BlockMetrics × List TransactionMetrics) : Prop :=
  ∃ (flz : List Nat → Nat) (block : RawBlock) (receipts : List RawReceipt),
    MetricsCalculator.process_block flz block receipts = Except.ok op

theorem forall₂_exists_left {α β : Type} {R : α → β → Prop} {l₁ : List α} {l₂ : List β}
    (h : List.Forall₂ R l₁ l₂) (y : β) (hy : y ∈ l₂) : ∃ x ∈ l₁, R x y := by
  induction h with
  | nil => cases hy
  | cons hr ht ih =>
    rcases List.mem_cons.mp hy with rfl | hy2
    · exact ⟨_, List.mem_cons_self _ _, hr⟩
    · obtain ⟨x, hx, hrx⟩ := ih hy2
      exact ⟨x, List.mem_cons_of_mem _ hx, hrx⟩

theorem process_block_consistent (flz : List Nat → Nat) (block : RawBlock)
    (receipts : List RawReceipt) (op : BlockMetrics × List TransactionMetrics)
    (h : MetricsCalculator.process_block flz block receipts = Except.ok op) :
    TxGroupConsistent op.1 op.2 := by
  obtain ⟨bm, txms⟩ := op
  simp only [MetricsCalculator.process_block, Except.ok.injEq, Prod.mk.injEq] at h
  obtain ⟨h1, h2⟩ := h
  subst h2
  subst h1
  refine ⟨?_, rfl, rfl, rfl, rfl, rfl, rfl, rfl, rfl, rfl⟩
  intro t ht
  simp only [List.mem_map] at ht
  obtain ⟨tx, _, rfl⟩ := ht
  rfl

theorem pairinv_push (blocks : List BlockMetrics) (txs : List TransactionMetrics)
    (bm : BlockMetrics) (g : List TransactionMetrics)
    (hinv : PairInv blocks txs) (hc : TxGroupConsistent bm g)
    (hgt : ∀ x ∈ blocks, x.block_number < bm.block_number) :
    PairInv (blocks ++ [bm]) (txs ++ g) := by
  obtain ⟨groups, hjoin, hf2, hpw⟩ := hinv
  refine ⟨groups ++ [g], ?_, ?_, ?_⟩
  · rw [hjoin, List.flatten_append]
    simp
  · exact List.rel_append hf2 (List.forall₂_cons.mpr ⟨hc, List.Forall₂.nil⟩)
  · rw [List.pairwise_append]
    refine ⟨hpw, List.pairwise_singleton _ _, fun a ha b hb => ?_⟩
    simp only [List.mem_singleton] at hb
    subst hb
    exact hgt a ha

theorem pairinv_evict_step (hd : BlockMetrics) (tl : List BlockMetrics)
    (txs : List TransactionMetrics) (hinv : PairInv (hd :: tl) txs) :
    PairInv tl (txs.dropWhile (fun t => t.block_number == hd.block_number)) := by
  obtain ⟨groups, hjoin, hf2, hpw⟩ := hinv
  cases hf2 with
  | cons hc hf2 =>
    rw [List.flatten_cons] at hjoin
    subst hjoin
    rw [dropWhile_append_of_forall _ _ _ (fun x hx => by
      rw [beq_iff_eq]
      exact hc.1 x hx)]
    rw [dropWhile_eq_self_of_forall _ _ (fun x hx => by
      obtain ⟨gi, hgi, hxi⟩ := List.mem_flatten.mp hx
      obtain ⟨b1, hb1, hcb1⟩ := forall₂_exists_left hf2 gi hgi
      have hlt : hd.block_number < b1.block_number := (List.pairwise_cons.mp hpw).1 b1 hb1
      have heq := hcb1.1 x hxi
      simp only [beq_eq_false_iff_ne, ne_eq]
      omega)]
    exact ⟨_, rfl, hf2, hpw.of_cons⟩

theorem pairinv_evict_loop (blocks : List BlockMetrics) (txs : List TransactionMetrics)
    (h : PairInv blocks txs) :
    PairInv (evict_loop blocks txs).1 (evict_loop blocks txs).2 := by
  induction blocks generalizing txs with
  | nil => simpa [evict_loop] using h
  | cons hd tl ih =>
    simp only [evict_loop]
    split
    · exact ih _ (pairinv_evict_step hd tl txs h)
    · exact h

theorem pairinv_add_block (s : MetricsStore) (bm : BlockMetrics)
    (g : List TransactionMetrics)
    (hinv : PairInv s.blocks s.transactions) (hc : TxGroupConsistent bm g)
    (hgt : ∀ x ∈ s.blocks, x.block_number < bm.block_number) :
    PairInv (s.add_block bm g).blocks (s.add_block bm g).transactions := by
  simp only [MetricsStore.add_block]
  exact pairinv_evict_loop _ _ (pairinv_push _ _ _ _ hinv hc hgt)

theorem add_block_blocks_subset (s : MetricsStore) (bm : BlockMetrics)
    (g : List TransactionMetrics) :
    (s.add_block bm g).blocks ⊆ s.blocks ++ [bm] := by
  simp only [MetricsStore.add_block]
  have h : (evict_loop (s.blocks ++ [bm]) (s.transactions ++ g)).1 =
      (s.blocks ++ [bm]).drop ((s.blocks ++ [bm]).length - MAX_BLOCKS) := by
    rw [evict_loop_spec]
  rw [h]
  exact List.drop_subset _ _

theorem pairinv_fold (ops : List (BlockMetrics × List TransactionMetrics))
    (s : MetricsStore)
    (hinv : PairInv s.blocks s.transactions)
    (hcalc : ∀ op ∈ ops, IsCalcOutput op)
    (hasc : ops.Pairwise (fun p q => p.1.block_number < q.1.block_number))
    (hgt : ∀ x ∈ s.blocks, ∀ op ∈ ops, x.block_number < op.1.block_number) :
    PairInv (ops.foldl (fun s0 p => s0.add_block p.1 p.2) s).blocks
      (ops.foldl (fun s0 p => s0.add_block p.1 p.2) s).transactions := by
  induction ops generalizing s with
  | nil => exact hinv
  | cons p rest ih =>
    simp only [List.foldl_cons]
    have hcp : TxGroupConsistent p.1 p.2 := by
      obtain ⟨flz, block, receipts, h⟩ := hcalc p (List.mem_cons_self _ _)
      exact process_block_consistent flz block receipts p h
    apply ih
    · exact pairinv_add_block s p.1 p.2 hinv hcp
        (fun x hx => hgt x hx p (List.mem_cons_self _ _))
    · exact fun op hop => hcalc op (List.mem_cons_of_mem _ hop)
    · exact hasc.of_cons
    · intro x hx op hop
      rcases List.mem_append.mp (add_block_blocks_subset s p.1 p.2 hx) with hx3 | hx3
      · exact hgt x hx3 op (List.mem_cons_of_mem _ hop)
      · simp only [List.mem_singleton] at hx3
        subst hx3
        exact (List.pairwise_cons.mp hasc).1 op hop

theorem pairinv_filter : ∀ (blocks : List BlockMetrics)
    (groups : List (List TransactionMetrics)),
    List.Forall₂ TxGroupConsistent blocks groups →
    blocks.Pairwise (fun a b => a.block_number < b.block_number) →
    ∀ bm ∈ blocks, ∃ g, TxGroupConsistent bm g ∧
      groups.flatten.filter (fun t => t.block_number == bm.block_number) = g := by
  intro blocks
  induction blocks with
  | nil => intro groups _ _ bm hm; cases hm
  | cons b bs ih =>
    intro groups hf2 hpw bm hm
    cases hf2 with
    | @cons _ g _ gs hc hf2 =>
      rw [List.flatten_cons, List.filter_append]
      rcases List.mem_cons.mp hm with rfl | hm2
      · have hg : g.filter (fun t => t.block_number == bm.block_number) = g :=
          List.filter_eq_self.mpr (fun t ht => by
            rw [beq_iff_eq]
            exact hc.1 t ht)
        have hrest : gs.flatten.filter
            (fun t => t.block_number == bm.block_number) = [] := by
          rw [List.filter_eq_nil_iff]
          intro t ht
          obtain ⟨gi, hgi, hti⟩ := List.mem_flatten.mp ht
          obtain ⟨b1, hb1, hcb1⟩ := forall₂_exists_left hf2 gi hgi
          have hlt : bm.block_number < b1.block_number := (List.pairwise_cons.mp hpw).1 b1 hb1
          have heq := hcb1.1 t hti
          simp only [beq_iff_eq]
          omega
        rw [hg, hrest, List.append_nil]
        exact ⟨g, hc, rfl⟩
      · have hg0 : g.filter (fun t => t.block_number == bm.block_number) = [] := by
          rw [List.filter_eq_nil_iff]
          intro t ht
          have h1 := hc.1 t ht
          have hlt : b.block_number < bm.block_number := (List.pairwise_cons.mp hpw).1 bm hm2
          simp only [beq_iff_eq]
          omega
        obtain ⟨g2, hcg2, hfil⟩ := ih _ hf2 hpw.of_cons bm hm2
        rw [hg0, hfil, List.nil_append]
        exact ⟨g2, hcg2, rfl⟩

/-- Claim C4: starting from a fresh store, inserting any ascending sequence
of calculator outputs leaves every retained block's tx_count equal to the
number of retained tx records carrying its block number, and each of its
eight metric sums equal to the sum of that field over those records —
preserved across evictions. -/
theorem block_tx_consistency (ops : List (BlockMetrics × List TransactionMetrics))
    (hcalc : ∀ op ∈ ops, IsCalcOutput op)
    (hasc : ops.Pairwise (fun p q => p.1.block_number < q.1.block_number)) :
    ∀ bm ∈ (store_after ops).blocks,
      bm.tx_count = ((store_after ops).transactions.filter
        (fun t => t.block_number == bm.block_number)).length ∧
      bm.total_gas = (((store_after ops).transactions.filter
        (fun t => t.block_number == bm.block_number)).map TransactionMetrics.total_gas).sum ∧
      bm.compute_gas = (((store_after ops).transactions.filter
        (fun t => t.block_number == bm.block_number)).map TransactionMetrics.compute_gas).sum ∧
      bm.storage_gas = (((store_after ops).transactions.filter
        (fun t => t.block_number == bm.block_number)).map TransactionMetrics.storage_gas).sum ∧
      bm.tx_size = (((store_after ops).transactions.filter
        (fun t => t.block_number == bm.block_number)).map TransactionMetrics.tx_size).sum ∧
      bm.da_size = (((store_after ops).transactions.filter
        (fun t => t.block_number == bm.block_number)).map TransactionMetrics.da_size).sum ∧
      bm.data_size = (((store_after ops).transactions.filter
        (fun t => t.block_number == bm.block_number)).map TransactionMetrics.data_size).sum ∧
      bm.kv_updates = (((store_after ops).transactions.filter
        (fun t => t.block_number == bm.block_number)).map TransactionMetrics.kv_updates).sum ∧
      bm.state_growth = (((store_after ops).transactions.filter
        (fun t => t.block_number == bm.block_number)).map TransactionMetrics.state_growth).sum := by
  have hinv : PairInv (store_after ops).blocks (store_after ops).transactions := by
    apply pairinv_fold ops MetricsStore.new
      ⟨[], rfl, List.Forall₂.nil, List.Pairwise.nil⟩ hcalc hasc
    intro x hx
    cases hx
  obtain ⟨groups, hjoin, hf2, hpw⟩ := hinv
  intro bm hm
  obtain ⟨g, hcg, hfil⟩ := pairinv_filter _ _ hf2 hpw bm hm
  rw [hjoin, hfil]
  exact ⟨hcg.2.1, hcg.2.2.1, hcg.2.2.2.1, hcg.2.2.2.2.1, hcg.2.2.2.2.2.1,
    hcg.2.2.2.2.2.2.1, hcg.2.2.2.2.2.2.2.1, hcg.2.2.2.2.2.2.2.2.1, hcg.2.2.2.2.2.2.2.2.2⟩

/-- The calculator output on the concrete block `blkW` with no receipts. -/
def opW : BlockMetrics × List TransactionMetrics :=
  match MetricsCalculator.process_block flz0 blkW [] with
  | .ok p => p
  | .error _ => (bmEx, [])

/-- Witness for C4 at the single concrete calculator output `opW`. -/
theorem block_tx_consistency_witness :
    opW.1.tx_count = ((store_after [opW]).transactions.filter
      (fun t => t.block_number == opW.1.block_number)).length :=
  (block_tx_consistency [opW]
    (fun op hop => by
      rw [List.mem_singleton] at hop
      subst hop
      exact ⟨flz0, blkW, [], rfl⟩)
    (List.pairwise_singleton _ _)
    opW.1 (by exact List.mem_singleton_self opW.1)).1
